import Mathlib

/-!
Verification of the moite_moite splitting library (src/lib.rs, src/sync.rs).

The library splits one owned value `W` into two owned handles (`Part<L, W>`,
`Part<R, W>`), each dereferencing to a disjoint sub-object of the value, which
lives in a single heap cell (`WholeCell`).  Handle destruction runs a one-flag
finalization protocol: swap the atomic flag to `true` with Release ordering;
whoever reads back `true` (the second to drop) issues an Acquire fence and
deallocates the cell.

Shallow embedding used here: a raw sub-pointer into the whole value is a lens
(`get`/`set` pair); the heap cell plus handle liveness is an explicit state
(`SysState`); operations are state transformers that additionally emit a trace
of low-level actions (allocation, atomic swap, fence, deallocation, plain
memory access) so that claims about orderings, allocation points and
synchronization-freedom can be stated.
-/

namespace MoiteMoite

/-- A mutable reference into a whole value of type `W` selecting a sub-object
of type `T`: the embedding of the raw sub-pointer a handle stores
(`Part::ptr` in src/sync.rs). -/
structure Lens (W T : Type) where
  get : W → T
  set : W → T → W

/-- Composition of sub-pointers: a pointer to `T` inside `W` followed by a
pointer to `U` inside that `T` yields a pointer to `U` inside `W`. -/
def Lens.comp {W T U : Type} (p : Lens W T) (c : Lens T U) : Lens W U where
  get := fun w => c.get (p.get w)
  set := fun w u => p.set w (c.set (p.get w) u)

/-- The splitting capability (the `SplitMut` trait of src/lib.rs): exclusive
access to `W` yields two mutable references, to an `L` part and an `R` part. -/
structure SplitMutCap (W L R : Type) where
  left : Lens W L
  right : Lens W R

/-- The `SplitMut` implementation for pairs (src/lib.rs lines 42-48): the left
reference is the first component, the right reference is the second. -/
def pairSplitMutCap (L R : Type) : SplitMutCap (L × R) L R where
  left := ⟨Prod.fst, fun w l => (l, w.2)⟩
  right := ⟨Prod.snd, fun w r => (w.1, r)⟩

/-- The shared heap cell (`WholeCell` in src/sync.rs): the one-shot
finalization flag `should_drop_value` and the whole value. -/
structure WholeCell (W : Type) where
  should_drop_value : Bool
  value : W

/-- The reference a handle holds to the shared cell (`WholeRef` in
src/sync.rs).  In this single-cell embedding it carries no data; the cell it
points to is the one in the ambient `SysState`. -/
structure WholeRef (W : Type) where
  mk ::

/-- A part of a split value (`Part<T, W>` in src/sync.rs): a reference to the
shared cell plus the raw sub-pointer established at split time. -/
structure Part (T W : Type) where
  whole : WholeRef W
  ptr : Lens W T

/-- Memory orderings of the atomic operations used by the protocol. -/
inductive MemOrd where
  | relaxed
  | release
  | acquire
  | acqRel
  | seqCst
deriving DecidableEq, Repr

/-- Low-level actions an operation of the system can perform, recorded as a
trace alongside the state change. -/
inductive Action where
  | allocCell (initialFlag : Bool)
  | callSplitMut
  | swapFlag (newVal : Bool) (ord : MemOrd)
  | fence (ord : MemOrd)
  | deallocCell
  | memRead
  | memWrite
deriving DecidableEq, Repr

/-- The full state of one split system: the shared cell contents, whether the
cell is still allocated, which of the two handles are still alive, and how
many times the cell has been deallocated (running the whole value teardown). -/
structure SysState (W : Type) where
  cell : WholeCell W
  cellAllocated : Bool
  leftAlive : Bool
  rightAlive : Bool
  teardownCount : Nat

/-- The `sync::split` entry point (src/sync.rs lines 48-73), with its trace:
allocate the cell with the flag `false`, call `split_mut` once on the value in
the cell to obtain the two sub-pointers, wrap each with a reference to the
same cell, and return both handles. -/
def splitT {W L R : Type} (value : W) (cap : SplitMutCap W L R) :
    (Part L W × Part R W) × SysState W × List Action :=
  let holder : WholeCell W := ⟨false, value⟩
  let leftPtr := cap.left
  let rightPtr := cap.right
  let leftPart : Part L W := ⟨⟨⟩, leftPtr⟩
  let rightPart : Part R W := ⟨⟨⟩, rightPtr⟩
  ((leftPart, rightPart),
   ⟨holder, true, true, true, 0⟩,
   [Action.allocCell false, Action.callSplitMut])

/-- The handles and initial state produced by `split`. -/
def splitParts {W L R : Type} (value : W) (cap : SplitMutCap W L R) :
    Part L W × Part R W :=
  (splitT value cap).1

/-- The system state right after `split` returns. -/
def splitState {W L R : Type} (value : W) (cap : SplitMutCap W L R) :
    SysState W :=
  (splitT value cap).2.1

/-- The destructor of a handle reference to the cell (`WholeRef::drop`,
src/sync.rs lines 107-125), with its trace: swap the flag to `true` with
Release ordering reading back the previous value; if the previous value was
`true`, issue an Acquire fence and deallocate the cell (which tears down the
whole value); otherwise nothing further. -/
def wholeRefDropT {W : Type} (s : SysState W) : SysState W × List Action :=
  let prev := s.cell.should_drop_value
  let s1 : SysState W := { s with cell := { s.cell with should_drop_value := true } }
  if prev then
    ({ s1 with cellAllocated := false, teardownCount := s1.teardownCount + 1 },
     [Action.swapFlag true MemOrd.release, Action.fence MemOrd.acquire,
      Action.deallocCell])
  else
    (s1, [Action.swapFlag true MemOrd.release])

/-- Immutable dereference of a handle (`Deref for Part`, src/sync.rs lines
141-152): read through the stored sub-pointer. -/
def Part.deref {T W : Type} (p : Part T W) (s : SysState W) : T :=
  p.ptr.get s.cell.value

/-- Immutable dereference with its trace: the read itself, no state change,
no synchronization. -/
def Part.derefT {T W : Type} (p : Part T W) (s : SysState W) :
    T × SysState W × List Action :=
  (p.ptr.get s.cell.value, s, [Action.memRead])

/-- Writing through the mutable dereference of a handle (`DerefMut for Part`,
src/sync.rs lines 154-163), with its trace: update the sub-object through the
stored sub-pointer, no synchronization. -/
def Part.writeT {T W : Type} (p : Part T W) (a : T) (s : SysState W) :
    SysState W × List Action :=
  ({ s with cell := { s.cell with value := p.ptr.set s.cell.value a } },
   [Action.memWrite])

/-- The `SplitMut` implementation for `Part` (src/sync.rs lines 86-97):
`(**self).split_mut()` dereferences to the sub-object and delegates to the
sub-object capability, so the resulting references, seen as sub-pointers into
the whole value, are the compositions of the handle pointer with the
capability of `T`. -/
def Part.splitMutP {T W L R : Type} (p : Part T W) (c : SplitMutCap T L R) :
    Lens W L × Lens W R :=
  (p.ptr.comp c.left, p.ptr.comp c.right)

/-- The operations a holder of the two handles can perform after the split:
dereference either handle, mutate through either handle, drop either handle. -/
inductive Op (L R : Type) where
  | derefLeft
  | derefRight
  | writeLeft (a : L)
  | writeRight (b : R)
  | dropLeft
  | dropRight

/-- One step of the system: dereferences do not change the state, mutations
write through the corresponding sub-pointer, and dropping a still-alive handle
runs `WholeRef::drop` and marks that handle dead.  Dropping an already dead
handle is impossible under ownership and is a no-op here. -/
def step {W L R : Type} (cap : SplitMutCap W L R) : Op L R → SysState W → SysState W
  | Op.derefLeft, s => s
  | Op.derefRight, s => s
  | Op.writeLeft a, s =>
      { s with cell := { s.cell with value := cap.left.set s.cell.value a } }
  | Op.writeRight b, s =>
      { s with cell := { s.cell with value := cap.right.set s.cell.value b } }
  | Op.dropLeft, s =>
      if s.leftAlive then { (wholeRefDropT s).1 with leftAlive := false } else s
  | Op.dropRight, s =>
      if s.rightAlive then { (wholeRefDropT s).1 with rightAlive := false } else s

/-- Run a sequence of operations from a state. -/
def run {W L R : Type} (cap : SplitMutCap W L R) :
    List (Op L R) → SysState W → SysState W
  | [], s => s
  | op :: ops, s => run cap ops (step cap op s)

/-- The protocol invariant tying the flag, cell allocation and teardown count
to handle liveness: the flag says at least one handle is dead, the cell is
allocated while at least one handle is alive, and the teardown has run exactly
once as soon as both handles are dead. -/
def Inv {W : Type} (s : SysState W) : Prop :=
  s.cell.should_drop_value = (!s.leftAlive || !s.rightAlive) ∧
  s.cellAllocated = (s.leftAlive || s.rightAlive) ∧
  s.teardownCount = (if s.leftAlive || s.rightAlive then 0 else 1)

lemma inv_splitState {W L R : Type} (value : W) (cap : SplitMutCap W L R) :
    Inv (splitState value cap) := by
  simp [Inv, splitState, splitT]

lemma inv_step {W L R : Type} (cap : SplitMutCap W L R) (op : Op L R)
    (s : SysState W) (h : Inv s) : Inv (step cap op s) := by
  obtain ⟨h1, h2, h3⟩ := h
  cases op with
  | derefLeft => exact ⟨h1, h2, h3⟩
  | derefRight => exact ⟨h1, h2, h3⟩
  | writeLeft a => exact ⟨h1, h2, h3⟩
  | writeRight b => exact ⟨h1, h2, h3⟩
  | dropLeft =>
      by_cases hl : s.leftAlive
      · cases hr : s.rightAlive
        · refine ⟨?_, ?_, ?_⟩ <;>
            simp [step, wholeRefDropT, hl, hr, h1, h2, h3]
        · refine ⟨?_, ?_, ?_⟩ <;>
            simp [step, wholeRefDropT, hl, hr, h1, h2, h3]
      · simpa [step, hl] using ⟨h1, h2, h3⟩
  | dropRight =>
      by_cases hr : s.rightAlive
      · cases hl : s.leftAlive
        · refine ⟨?_, ?_, ?_⟩ <;>
            simp [step, wholeRefDropT, hl, hr, h1, h2, h3]
        · refine ⟨?_, ?_, ?_⟩ <;>
            simp [step, wholeRefDropT, hl, hr, h1, h2, h3]
      · simpa [step, hr] using ⟨h1, h2, h3⟩

lemma inv_run {W L R : Type} (cap : SplitMutCap W L R) (ops : List (Op L R))
    (s : SysState W) (h : Inv s) : Inv (run cap ops s) := by
  induction ops generalizing s with
  | nil => exact h
  | cons op ops ih => exact ih _ (inv_step cap op s h)

/-- Two sub-pointers are disjoint when a write through either never changes
what is read through the other: the non-overlap contract the splitting
capability must satisfy (caller obligation, spec sections 2 and 4.1). -/
def DisjointLens {W L R : Type} (l : Lens W L) (r : Lens W R) : Prop :=
  (∀ w a, r.get (l.set w a) = r.get w) ∧
  (∀ w b, l.get (r.set w b) = l.get w)

/-- A sub-pointer genuinely addresses its sub-object: reading right after a
write through it returns the value just written. -/
def LawfulGetSet {W T : Type} (l : Lens W T) : Prop :=
  ∀ w a, l.get (l.set w a) = a

/-- Number of heap-allocation actions in a trace. -/
def allocCount (tr : List Action) : Nat :=
  tr.countP fun act => match act with
    | Action.allocCell _ => true
    | _ => false

/-- Number of splitting-capability invocations in a trace. -/
def splitMutCallCount (tr : List Action) : Nat :=
  tr.countP fun act => match act with
    | Action.callSplitMut => true
    | _ => false

/-- Whether an action is a synchronization operation (an atomic
read-modify-write or a fence). -/
def isSyncAction : Action → Bool
  | Action.swapFlag _ _ => true
  | Action.fence _ => true
  | _ => false

/-- The finalization protocol written from the spec words (section 4.3), for
the refinement claim C3: atomically swap the flag to finalized and read back
the previous value, with release ordering for the write; if the previous
value was already finalized (this handle is second), perform an acquire fence
and deallocate the cell, running the whole value teardown; if it was not
finalized (this handle is first), do nothing further. -/
def specFinalize {W : Type} (s : SysState W) : SysState W × List Action :=
  let previous := s.cell.should_drop_value
  let afterSwap : SysState W :=
    { s with cell := { s.cell with should_drop_value := true } }
  match previous with
  | false =>
      (afterSwap, [Action.swapFlag true MemOrd.release])
  | true =>
      ({ afterSwap with cellAllocated := false, teardownCount := afterSwap.teardownCount + 1 },
       [Action.swapFlag true MemOrd.release, Action.fence MemOrd.acquire,
        Action.deallocCell])

/-- The split entry point written from the spec words (section 4.1), for the
refinement claim C6: allocate the cell on the heap with its flag initialized
to not finalized; invoke the splitting capability exactly once against the
value now living inside the cell, obtaining two sub-pointers; construct the
left handle from the first sub-pointer plus a reference to the cell and the
right handle from the second sub-pointer plus a second reference to the same
cell; return both. -/
def specSplit {W L R : Type} (value : W) (cap : SplitMutCap W L R) :
    (Part L W × Part R W) × SysState W × List Action :=
  let cell : WholeCell W := { should_drop_value := false, value := value }
  let subPtrs : Lens W L × Lens W R := (cap.left, cap.right)
  let leftHandle : Part L W := { whole := ⟨⟩, ptr := subPtrs.1 }
  let rightHandle : Part R W := { whole := ⟨⟩, ptr := subPtrs.2 }
  ((leftHandle, rightHandle),
   ⟨cell, true, true, true, 0⟩,
   [Action.allocCell false, Action.callSplitMut])

/-- Heap allocation (`Box::into_raw` of a fresh box) at address level: the
allocator at counter `next` hands out address `next + 1`, so a returned
address is never the null address 0. -/
def boxIntoRaw (next : Nat) : Nat × Nat :=
  (next + 1, next + 1)

/-- The checked pointer constructor (`NonNull::new`): fails exactly on the
null address. -/
def nonNullNew (addr : Nat) : Option Nat :=
  if addr = 0 then none else some addr

/-- Address-level model of the pointer construction inside `split`
(src/sync.rs lines 59-72): the cell lives at a fresh heap address, the two
sub-objects at offsets inside the cell; each of the three
`NonNull::new(..).expect("never null")` sites panics exactly when its address
is the null address. -/
def splitAddrs (next offL offR : Nat) : Option (Nat × Nat × Nat) := do
  let cellAddr := (boxIntoRaw next).1
  let holder ← nonNullNew cellAddr
  let leftPtr ← nonNullNew (cellAddr + offL)
  let rightPtr ← nonNullNew (cellAddr + offR)
  pure (holder, leftPtr, rightPtr)

/-- C1: in every complete execution from a split in which both handles end up
destroyed, in whatever order and with whatever dereferences and mutations in
between, the cell deallocation (the whole value teardown) has run exactly
once. -/
theorem teardown_runs_exactly_once {W L R : Type} (value : W)
    (cap : SplitMutCap W L R) (ops : List (Op L R))
    (hL : (run cap ops (splitState value cap)).leftAlive = false)
    (hR : (run cap ops (splitState value cap)).rightAlive = false) :
    (run cap ops (splitState value cap)).teardownCount = 1 := by
  obtain ⟨-, -, h3⟩ := inv_run cap ops _ (inv_splitState value cap)
  rw [h3, hL, hR]
  rfl

/-- Witness for C1: both destruction orders on a concrete split of the pair
`(1, 2)` each tear the cell down exactly once. -/
theorem teardown_runs_exactly_once_witness :
    (run (pairSplitMutCap Nat Nat) [Op.dropLeft, Op.dropRight]
      (splitState (1, 2) (pairSplitMutCap Nat Nat))).teardownCount = 1 ∧
    (run (pairSplitMutCap Nat Nat) [Op.dropRight, Op.writeLeft 5, Op.dropLeft]
      (splitState (1, 2) (pairSplitMutCap Nat Nat))).teardownCount = 1 :=
  ⟨teardown_runs_exactly_once (1, 2) (pairSplitMutCap Nat Nat)
      [Op.dropLeft, Op.dropRight] rfl rfl,
   teardown_runs_exactly_once (1, 2) (pairSplitMutCap Nat Nat)
      [Op.dropRight, Op.writeLeft 5, Op.dropLeft] rfl rfl⟩

/-- C2: in every execution from a split in which exactly one handle has been
destroyed, the teardown has not run, the cell is still allocated for the
sibling, and the only protocol effect of the first destruction is the flag
now reading finalized. -/
theorem single_drop_never_deallocates {W L R : Type} (value : W)
    (cap : SplitMutCap W L R) (ops : List (Op L R))
    (hOne : (run cap ops (splitState value cap)).leftAlive ≠
      (run cap ops (splitState value cap)).rightAlive) :
    (run cap ops (splitState value cap)).teardownCount = 0 ∧
    (run cap ops (splitState value cap)).cellAllocated = true ∧
    (run cap ops (splitState value cap)).cell.should_drop_value = true := by
  obtain ⟨h1, h2, h3⟩ := inv_run cap ops _ (inv_splitState value cap)
  rcases hl : (run cap ops (splitState value cap)).leftAlive <;>
    rcases hr : (run cap ops (splitState value cap)).rightAlive <;>
    rw [hl, hr] at hOne h1 h2 h3 <;>
    first
      | exact absurd rfl hOne
      | exact ⟨by rw [h3]; rfl, by rw [h2]; rfl, by rw [h1]; rfl⟩

/-- Witness for C2: dropping only the right handle of a concrete split leaves
the teardown count at 0 and the cell allocated, with the flag finalized. -/
theorem single_drop_never_deallocates_witness :
    (run (pairSplitMutCap Nat Nat) [Op.dropRight]
      (splitState (1, 2) (pairSplitMutCap Nat Nat))).teardownCount = 0 ∧
    (run (pairSplitMutCap Nat Nat) [Op.dropRight]
      (splitState (1, 2) (pairSplitMutCap Nat Nat))).cellAllocated = true ∧
    (run (pairSplitMutCap Nat Nat) [Op.dropRight]
      (splitState (1, 2) (pairSplitMutCap Nat Nat))).cell.should_drop_value
      = true :=
  single_drop_never_deallocates (1, 2) (pairSplitMutCap Nat Nat)
    [Op.dropRight] (by decide)

/-- C3: handle destruction follows exactly the specified finalization
algorithm: the source `WholeRef::drop` step coincides, state change and
action trace alike, with the algorithm written from the spec words. -/
theorem drop_follows_spec_algorithm {W : Type} (s : SysState W) :
    wholeRefDropT s = specFinalize s := by
  rcases h : s.cell.should_drop_value <;>
    simp [wholeRefDropT, specFinalize, h]

/-- C4: splitting a pair `(a, b)` yields a left handle dereferencing to `a`
and a right handle dereferencing to `b`. -/
theorem split_pair_round_trip {A B : Type} (a : A) (b : B) :
    (splitParts (a, b) (pairSplitMutCap A B)).1.deref
      (splitState (a, b) (pairSplitMutCap A B)) = a ∧
    (splitParts (a, b) (pairSplitMutCap A B)).2.deref
      (splitState (a, b) (pairSplitMutCap A B)) = b :=
  ⟨rfl, rfl⟩

/-- C5: for a splitting capability whose two sub-pointers are disjoint and
genuine, a mutation through one handle is observable through that handle and
never changes the value read through the sibling handle, from any state and
in either direction. -/
theorem mutation_observed_only_through_own_handle {W L R : Type} (value : W)
    (cap : SplitMutCap W L R) (hd : DisjointLens cap.left cap.right)
    (hl : LawfulGetSet cap.left) (hr : LawfulGetSet cap.right)
    (s : SysState W) (a : L) (b : R) :
    ((splitParts value cap).2.deref
        (((splitParts value cap).1.writeT a s).1) =
      (splitParts value cap).2.deref s) ∧
    ((splitParts value cap).1.deref
        (((splitParts value cap).1.writeT a s).1) = a) ∧
    ((splitParts value cap).1.deref
        (((splitParts value cap).2.writeT b s).1) =
      (splitParts value cap).1.deref s) ∧
    ((splitParts value cap).2.deref
        (((splitParts value cap).2.writeT b s).1) = b) := by
  refine ⟨?_, ?_, ?_, ?_⟩ <;>
    simp [Part.deref, Part.writeT, splitParts, splitT,
      hd.1 s.cell.value a, hd.2 s.cell.value b,
      hl s.cell.value a, hr s.cell.value b]

/-- Witness for C5, the spec scenario: split the pair
`("baguette", "delicieux")`, mutate the right handle to `"exquis"`; the left
handle still reads `"baguette"` and the right handle now reads `"exquis"`. -/
theorem mutation_observed_only_through_own_handle_witness :
    ((splitParts ("baguette", "delicieux")
        (pairSplitMutCap String String)).1.deref
      (((splitParts ("baguette", "delicieux")
          (pairSplitMutCap String String)).2.writeT "exquis"
        (splitState ("baguette", "delicieux")
          (pairSplitMutCap String String))).1) = "baguette") ∧
    ((splitParts ("baguette", "delicieux")
        (pairSplitMutCap String String)).2.deref
      (((splitParts ("baguette", "delicieux")
          (pairSplitMutCap String String)).2.writeT "exquis"
        (splitState ("baguette", "delicieux")
          (pairSplitMutCap String String))).1) = "exquis") := by
  have h := mutation_observed_only_through_own_handle
    ("baguette", "delicieux") (pairSplitMutCap String String)
    ⟨fun _ _ => rfl, fun _ _ => rfl⟩ (fun _ _ => rfl) (fun _ _ => rfl)
    (splitState ("baguette", "delicieux") (pairSplitMutCap String String))
    "baguette" "exquis"
  exact ⟨h.2.2.1.trans rfl, h.2.2.2⟩

/-- C6: `split` performs exactly the specified steps (one heap allocation of
the cell with the flag not finalized, one invocation of the splitting
capability, handle assembly from the two sub-pointers and the shared cell,
returning both), and no later operation of the system, dereference, mutation
or handle destruction, ever allocates. -/
theorem split_steps_and_sole_allocation {W L R : Type} (value : W)
    (cap : SplitMutCap W L R) :
    splitT value cap = specSplit value cap ∧
    allocCount (splitT value cap).2.2 = 1 ∧
    splitMutCallCount (splitT value cap).2.2 = 1 ∧
    (∀ (T : Type) (p : Part T W) (s : SysState W),
      allocCount (p.derefT s).2.2 = 0) ∧
    (∀ (T : Type) (p : Part T W) (a : T) (s : SysState W),
      allocCount (p.writeT a s).2 = 0) ∧
    (∀ s : SysState W, allocCount (wholeRefDropT s).2 = 0) := by
  refine ⟨rfl, rfl, rfl, fun T p s => rfl, fun T p a s => rfl, fun s => ?_⟩
  rcases h : s.cell.should_drop_value <;>
    simp [wholeRefDropT, allocCount, h]

/-- C7: the pointer construction inside `split` never takes a panic branch:
the cell address is a fresh heap address, hence non-null, and both
sub-pointers point at offsets inside that allocation, hence non-null, so all
three `NonNull::new(..).expect("never null")` sites succeed for every
allocator state and every pair of sub-object offsets; dereference and
destruction are total and panic-free by construction. -/
theorem public_operations_never_panic (next offL offR : Nat) :
    splitAddrs next offL offR =
      some (next + 1, next + 1 + offL, next + 1 + offR) := by
  simp [splitAddrs, boxIntoRaw, nonNullNew]

/-- C8: dereferencing a handle reads exactly through its own sub-pointer,
changes nothing, and performs no synchronization; a mutation through a handle
leaves the finalization flag untouched, leaves the sibling sub-object
unchanged whenever the two sub-pointers are disjoint, and performs no
synchronization either. -/
theorem deref_own_subobject_no_sync {T U W : Type} (p : Part T W)
    (sib : Part U W) (a : T) (s : SysState W)
    (hd : DisjointLens p.ptr sib.ptr) :
    ((p.derefT s).1 = p.ptr.get s.cell.value) ∧
    ((p.derefT s).2.1 = s) ∧
    ((p.derefT s).2.2.all fun act => !isSyncAction act) = true ∧
    (((p.writeT a s).1).cell.should_drop_value =
      s.cell.should_drop_value) ∧
    (sib.deref ((p.writeT a s).1) = sib.deref s) ∧
    ((p.writeT a s).2.all fun act => !isSyncAction act) = true := by
  refine ⟨rfl, rfl, rfl, rfl, ?_, rfl⟩
  simp [Part.deref, Part.writeT, hd.1 s.cell.value a]

/-- Witness for C8 at a concrete split of `(1, 2)`: dereferencing the left
handle reads its own sub-object without state change or synchronization, and
writing 7 through it leaves the flag and the right sub-object untouched. -/
theorem deref_own_subobject_no_sync_witness :
    (((splitParts (1, 2) (pairSplitMutCap Nat Nat)).1.derefT
        (splitState (1, 2) (pairSplitMutCap Nat Nat))).1 =
      (splitParts (1, 2) (pairSplitMutCap Nat Nat)).1.ptr.get
        (splitState (1, 2) (pairSplitMutCap Nat Nat)).cell.value) ∧
    (((splitParts (1, 2) (pairSplitMutCap Nat Nat)).1.derefT
        (splitState (1, 2) (pairSplitMutCap Nat Nat))).2.1 =
      splitState (1, 2) (pairSplitMutCap Nat Nat)) ∧
    ((((splitParts (1, 2) (pairSplitMutCap Nat Nat)).1.derefT
        (splitState (1, 2) (pairSplitMutCap Nat Nat))).2.2.all
      fun act => !isSyncAction act) = true) ∧
    ((((splitParts (1, 2) (pairSplitMutCap Nat Nat)).1.writeT 7
        (splitState (1, 2) (pairSplitMutCap Nat Nat))).1).cell.should_drop_value =
      (splitState (1, 2) (pairSplitMutCap Nat Nat)).cell.should_drop_value) ∧
    ((splitParts (1, 2) (pairSplitMutCap Nat Nat)).2.deref
        (((splitParts (1, 2) (pairSplitMutCap Nat Nat)).1.writeT 7
          (splitState (1, 2) (pairSplitMutCap Nat Nat))).1) =
      (splitParts (1, 2) (pairSplitMutCap Nat Nat)).2.deref
        (splitState (1, 2) (pairSplitMutCap Nat Nat))) ∧
    ((((splitParts (1, 2) (pairSplitMutCap Nat Nat)).1.writeT 7
        (splitState (1, 2) (pairSplitMutCap Nat Nat))).2.all
      fun act => !isSyncAction act) = true) :=
  deref_own_subobject_no_sync
    (splitParts (1, 2) (pairSplitMutCap Nat Nat)).1
    (splitParts (1, 2) (pairSplitMutCap Nat Nat)).2 7
    (splitState (1, 2) (pairSplitMutCap Nat Nat))
    ⟨fun _ _ => rfl, fun _ _ => rfl⟩

/-- C9: the `SplitMut` implementation of a handle is pure delegation: each
resulting sub-pointer reads as the sub-object capability applied to the
dereferenced sub-object, and each write through it rewrites only the handle
sub-object through the handle pointer, never the shared cell. -/
theorem part_split_mut_delegates {T W L R : Type} (p : Part T W)
    (c : SplitMutCap T L R) (s : SysState W) (a : L) (b : R) :
    ((p.splitMutP c).1.get s.cell.value = c.left.get (p.deref s)) ∧
    ((p.splitMutP c).2.get s.cell.value = c.right.get (p.deref s)) ∧
    ((p.splitMutP c).1.set s.cell.value a =
      p.ptr.set s.cell.value (c.left.set (p.deref s) a)) ∧
    ((p.splitMutP c).2.set s.cell.value b =
      p.ptr.set s.cell.value (c.right.set (p.deref s) b)) :=
  ⟨rfl, rfl, rfl, rfl⟩

/-- C10: the finalization flag is monotone: `split` initializes it to false,
every handle destruction unconditionally writes true through the swap, no
operation ever resets it to false, and along any operation sequence from a
split the teardown runs at most once. -/
theorem flag_monotone_invariant {W L R : Type} (value : W)
    (cap : SplitMutCap W L R) :
    ((splitState value cap).cell.should_drop_value = false) ∧
    (∀ s : SysState W,
      ((wholeRefDropT s).1).cell.should_drop_value = true) ∧
    (∀ (op : Op L R) (s : SysState W),
      s.cell.should_drop_value = true →
      (step cap op s).cell.should_drop_value = true) ∧
    (∀ ops : List (Op L R),
      (run cap ops (splitState value cap)).teardownCount ≤ 1) := by
  refine ⟨rfl, fun s => ?_, fun op s h => ?_, fun ops => ?_⟩
  · rcases hp : s.cell.should_drop_value <;> simp [wholeRefDropT, hp]
  · cases op with
    | derefLeft => exact h
    | derefRight => exact h
    | writeLeft a => exact h
    | writeRight b => exact h
    | dropLeft =>
        by_cases hl : s.leftAlive <;> simp [step, wholeRefDropT, hl, h]
    | dropRight =>
        by_cases hr : s.rightAlive <;> simp [step, wholeRefDropT, hr, h]
  · obtain ⟨-, -, h3⟩ := inv_run cap ops _ (inv_splitState value cap)
    rw [h3]
    split <;> simp

/-- Witness for C10 on a concrete split of `(1, 2)`: the flag starts false,
stays true across a further operation once set, and two drops tear down at
most once. -/
theorem flag_monotone_invariant_witness :
    ((splitState ((1 : Nat), (2 : Nat))
        (pairSplitMutCap Nat Nat)).cell.should_drop_value = false) ∧
    ((step (pairSplitMutCap Nat Nat) (Op.writeLeft 9)
        (run (pairSplitMutCap Nat Nat) [Op.dropLeft]
          (splitState (1, 2)
            (pairSplitMutCap Nat Nat)))).cell.should_drop_value = true) ∧
    ((run (pairSplitMutCap Nat Nat) [Op.dropLeft, Op.dropRight]
        (splitState (1, 2) (pairSplitMutCap Nat Nat))).teardownCount ≤ 1) := by
  have h := flag_monotone_invariant ((1 : Nat), (2 : Nat))
    (pairSplitMutCap Nat Nat)
  exact ⟨h.1, h.2.2.1 (Op.writeLeft 9) _ (by decide),
    h.2.2.2 [Op.dropLeft, Op.dropRight]⟩

end MoiteMoite
